import Mathlib

/-!
Verification of the per-image counting and summary logic of `OrgQ_HN.py`.

The model below is a shallow embedding of the `process` function of the
repository: the calibration block (source lines 113-127), the lower-bound
threshold resolution (lines 511-516), the header construction (lines 333-372),
the per-candidate size/positivity/colocalization loop (lines 376-416), and the
size-average computation (lines 418-421).  Machine floats of the source are
modelled as exact rationals; the per-candidate area-fraction table
`areaFractionsArray[x][z]` is modelled as a function `af x z`, and the
configured channel list as a list of (marker name, channel index) pairs,
exactly as built by `getChannels`.
-/

namespace OrgQ

/-- Size classes a candidate particle can fall into, corresponding to the
`if area > tooBigThreshold / elif area < tooSmallThreshold / else` branches of
the candidate loop (source lines 382-386). -/
inductive SizeClass
  | tooBig
  | tooSmall
  | valid
  deriving DecidableEq

/-- Default `tooBigThreshold = 500` (source line 470). -/
def tooBigThreshold : Rat := 500

/-- Default `tooSmallThreshold = 50` (source line 469). -/
def tooSmallThreshold : Rat := 50

/-- Default `areaFractionThreshold = [0.1, 0.1, 0.1, 0.1, 0.1]` (source line
468), modelled as a function from channel index to threshold. -/
def areaFractionThreshold : Nat → Rat := fun _ => 1 / 10

/-- The default channel configuration offered by the `getChannels` dialog
(source lines 49-52): ch00 Dapi, ch01 pSYN, ch02 MAP2, ch03 SYN. -/
def channelsDefault : List (String × Nat) :=
  [("Dapi", 0), ("pSYN", 1), ("MAP2", 2), ("SYN", 3)]

/-- Size classification of one candidate area, from the branch structure at
source lines 382-386: strictly greater than the too-big threshold is too-big,
otherwise strictly less than the too-small threshold is too-small, otherwise
valid. -/
def classify (tb ts a : Rat) : SizeClass :=
  if a > tb then SizeClass.tooBig
  else if a < ts then SizeClass.tooSmall
  else SizeClass.valid

/-- The numeric counters of the per-image `summary` dictionary that the
candidate loop mutates (source lines 326-331, 345, 360, 366-368, 389).
`positives x` is the counter behind the `v + "-positive"` key of the channel
with index `x`; `pair12`, `pair13`, `pair23` and `triple` are the
colocalization counters; `areaCounter` is the running sum of valid areas. -/
structure Summary where
  tooBig : Nat
  tooSmall : Nat
  nuclei : Nat
  allNegative : Nat
  positives : Nat → Nat
  pair12 : Nat
  pair13 : Nat
  pair23 : Nat
  triple : Nat
  areaCounter : Rat

/-- All counters start at zero (source lines 326-331, 345, 360, 366-368 and
`areaCounter = 0` at line 376). -/
def initialSummary : Summary :=
  { tooBig := 0, tooSmall := 0, nuclei := 0, allNegative := 0,
    positives := fun _ => 0, pair12 := 0, pair13 := 0, pair23 := 0,
    triple := 0, areaCounter := 0 }

/-- The positivity test of the single-marker loop, source line 394:
`areaFractionsArray[x][z] > areaFractionThreshold[0]` — a strict comparison
against the threshold at index 0, whatever the channel index `x` is. -/
def markerPositive (aft : Nat → Rat) (af : Nat → Nat → Rat) (x z : Nat) : Bool :=
  decide (af x z > aft 0)

/-- One iteration of the `for chan in channels` loop at source lines 392-398:
if the area fraction of the candidate for the channel exceeds
`areaFractionThreshold[0]`, increment the positive counter of that channel, and
increment `temp` when the channel index is not 0. -/
def markerStep (aft : Nat → Rat) (af : Nat → Nat → Rat) (z : Nat)
    (acc : Summary × Nat) (chan : String × Nat) : Summary × Nat :=
  if af chan.2 z > aft 0 then
    ({ acc.1 with
        positives := fun i => if i = chan.2 then acc.1.positives i + 1 else acc.1.positives i },
     if chan.2 ≠ 0 then acc.2 + 1 else acc.2)
  else acc

/-- Source lines 400-401: if no non-reference channel was positive
(`temp == 0`), increment the all-negative counter. -/
def allNegStep (p : Summary × Nat) : Summary :=
  if p.2 = 0 then { p.1 with allNegative := p.1.allNegative + 1 } else p.1

/-- Source lines 403-406: with more than two configured channels, increment the
marker1-marker2 pairwise counter when both area fractions exceed their own
thresholds. -/
def pairStep (channels : List (String × Nat)) (aft : Nat → Rat)
    (af : Nat → Nat → Rat) (z : Nat) (s : Summary) : Summary :=
  if 2 < channels.length then
    if af 1 z > aft 1 then
      if af 2 z > aft 2 then { s with pair12 := s.pair12 + 1 } else s
    else s
  else s

/-- Source lines 408-416: with more than three configured channels, the
marker1-marker3 pair is evaluated on its own; the marker2-marker3 pair is
evaluated next, and only inside its body, after incrementing `pair23`, is
marker1 re-tested to increment the triple counter. -/
def tripleStep (channels : List (String × Nat)) (aft : Nat → Rat)
    (af : Nat → Nat → Rat) (z : Nat) (s : Summary) : Summary :=
  if 3 < channels.length then
    let sa := if af 1 z > aft 1 then
        (if af 3 z > aft 3 then { s with pair13 := s.pair13 + 1 } else s)
      else s
    if af 2 z > aft 2 then
      if af 3 z > aft 3 then
        let sb := { sa with pair23 := sa.pair23 + 1 }
        if af 1 z > aft 1 then { sb with triple := sb.triple + 1 } else sb
      else sa
    else sa
  else s

/-- One iteration of the candidate loop `for z, area in enumerate(areas)`
(source lines 377-416).  Too-big and too-small candidates only bump their size
counter; only the `else` (valid) branch increments the nucleus counter, the
area accumulator, and runs the positivity and colocalization logic. -/
def processCandidate (channels : List (String × Nat)) (aft : Nat → Rat)
    (af : Nat → Nat → Rat) (tb ts : Rat) (z : Nat) (area : Rat) (s : Summary) : Summary :=
  if area > tb then { s with tooBig := s.tooBig + 1 }
  else if area < ts then { s with tooSmall := s.tooSmall + 1 }
  else
    tripleStep channels aft af z
      (pairStep channels aft af z
        (allNegStep (channels.foldl (markerStep aft af z)
          ({ s with nuclei := s.nuclei + 1, areaCounter := s.areaCounter + area }, 0))))

/-- The whole candidate loop over the enumerated `areas` column. -/
def processAllCandidates (channels : List (String × Nat)) (aft : Nat → Rat)
    (af : Nat → Nat → Rat) (tb ts : Rat) (areas : List Rat) : Summary :=
  areas.enum.foldl (fun s za => processCandidate channels aft af tb ts za.1 za.2 s)
    initialSummary

/-- Rounding to two decimals, modelling the Python 2 `round(x, 2)` of source
line 421 on the nonnegative values it is applied to (ties away from zero). -/
def round2 (q : Rat) : Rat := ((⌊q * 100 + 1 / 2⌋ : Int) : Rat) / 100

/-- Source lines 326 and 420-421: `size-average` starts at 0 and is replaced by
`round(areaCounter / summary[#nuclei], 2)` when the nucleus counter is
positive. -/
def sizeAverage (channels : List (String × Nat)) (aft : Nat → Rat)
    (af : Nat → Nat → Rat) (tb ts : Rat) (areas : List Rat) : Rat :=
  if ((processAllCandidates channels aft af tb ts areas).nuclei : Rat) > 0 then
    round2 ((processAllCandidates channels aft af tb ts areas).areaCounter
      / ((processAllCandidates channels aft af tb ts areas).nuclei : Rat))
  else 0

/-- Area-fraction table that is 1 everywhere (every marker saturated). -/
def afOne : Nat → Nat → Rat := fun _ _ => 1

/-- Area-fraction table that is 0 everywhere. -/
def afZero : Nat → Nat → Rat := fun _ _ => 0

/-- Area-fraction table that equals the default threshold 0.1 everywhere. -/
def afTenth : Nat → Nat → Rat := fun _ _ => 1 / 10

/-- Area-fraction table where candidate 0 is negative for channel 2 only and
candidate 1 is positive everywhere. -/
def afMixed : Nat → Nat → Rat := fun x z => if z = 0 ∧ x = 2 then 0 else 1

/-- The positivity boolean as the SPEC describes it (for comparison with
`markerPositive`, which is the code): area fraction greater than OR EQUAL to
the threshold of that specific marker index. -/
def markerPositiveSpec (aft : Nat → Rat) (af : Nat → Nat → Rat) (x z : Nat) : Bool :=
  decide (af x z ≥ aft x)

/-! ### Step lemmas for the candidate loop -/

theorem markerStep_spec (aft : Nat → Rat) (af : Nat → Nat → Rat) (z : Nat)
    (acc : Summary × Nat) (chan : String × Nat) :
    (markerStep aft af z acc chan).1.tooBig = acc.1.tooBig ∧
    (markerStep aft af z acc chan).1.tooSmall = acc.1.tooSmall ∧
    (markerStep aft af z acc chan).1.nuclei = acc.1.nuclei ∧
    (markerStep aft af z acc chan).1.areaCounter = acc.1.areaCounter ∧
    (markerStep aft af z acc chan).1.triple = acc.1.triple := by
  unfold markerStep
  split <;> simp

theorem markerFold_fixed (aft : Nat → Rat) (af : Nat → Nat → Rat) (z : Nat)
    (channels : List (String × Nat)) :
    ∀ acc : Summary × Nat,
      (channels.foldl (markerStep aft af z) acc).1.tooBig = acc.1.tooBig ∧
      (channels.foldl (markerStep aft af z) acc).1.tooSmall = acc.1.tooSmall ∧
      (channels.foldl (markerStep aft af z) acc).1.nuclei = acc.1.nuclei ∧
      (channels.foldl (markerStep aft af z) acc).1.areaCounter = acc.1.areaCounter ∧
      (channels.foldl (markerStep aft af z) acc).1.triple = acc.1.triple := by
  induction channels with
  | nil => intro acc; exact ⟨rfl, rfl, rfl, rfl, rfl⟩
  | cons c cs ih =>
    intro acc
    rw [List.foldl_cons]
    obtain ⟨i1, i2, i3, i4, i5⟩ := ih (markerStep aft af z acc c)
    obtain ⟨s1, s2, s3, s4, s5⟩ := markerStep_spec aft af z acc c
    exact ⟨i1.trans s1, i2.trans s2, i3.trans s3, i4.trans s4, i5.trans s5⟩

theorem markerFold_positives (aft : Nat → Rat) (af : Nat → Nat → Rat) (z x : Nat)
    (channels : List (String × Nat)) :
    ∀ acc : Summary × Nat,
      (channels.foldl (markerStep aft af z) acc).1.positives x
        = acc.1.positives x
          + channels.countP (fun c => c.2 == x && decide (af c.2 z > aft 0)) := by
  induction channels with
  | nil => intro acc; simp
  | cons c cs ih =>
    intro acc
    rw [List.foldl_cons, ih, List.countP_cons]
    unfold markerStep
    by_cases haf : af c.2 z > aft 0
    · by_cases hx : x = c.2
      · subst hx
        simp only [if_pos haf]
        simp [haf]
        omega
      · simp only [if_pos haf]
        simp [haf, hx, Ne.symm hx]
    · simp [haf]

theorem countP_channel_hit (aft : Nat → Rat) (af : Nat → Nat → Rat) (z : Nat)
    (v : String) (x : Nat) :
    ∀ channels : List (String × Nat), (v, x) ∈ channels → (channels.map Prod.snd).Nodup →
      channels.countP (fun c => c.2 == x && decide (af c.2 z > aft 0))
        = if af x z > aft 0 then 1 else 0 := by
  intro channels
  induction channels with
  | nil => intro h; exact absurd h (List.not_mem_nil _)
  | cons c cs ih =>
    intro hmem hnd
    rw [List.map_cons, List.nodup_cons] at hnd
    rw [List.countP_cons]
    rcases List.mem_cons.mp hmem with hc | hc
    · have hx : c.2 = x := by rw [← hc]
      have hz : cs.countP (fun c2 => c2.2 == x && decide (af c2.2 z > aft 0)) = 0 := by
        rw [List.countP_eq_zero]
        intro c2 hc2
        have hne : c2.2 ≠ x := by
          intro he
          apply hnd.1
          rw [hx, ← he]
          exact List.mem_map_of_mem Prod.snd hc2
        simp [hne]
      rw [hz, hx]
      by_cases haf : af x z > aft 0 <;> simp [haf]
    · have hx : c.2 ≠ x := by
        intro he
        apply hnd.1
        rw [he]
        exact List.mem_map_of_mem Prod.snd hc
      rw [ih hc hnd.2]
      simp [hx]

theorem allNegStep_spec (p : Summary × Nat) :
    (allNegStep p).tooBig = p.1.tooBig ∧
    (allNegStep p).tooSmall = p.1.tooSmall ∧
    (allNegStep p).nuclei = p.1.nuclei ∧
    (allNegStep p).areaCounter = p.1.areaCounter ∧
    (allNegStep p).positives = p.1.positives ∧
    (allNegStep p).triple = p.1.triple := by
  unfold allNegStep
  split <;> simp

theorem pairStep_spec (channels : List (String × Nat)) (aft : Nat → Rat)
    (af : Nat → Nat → Rat) (z : Nat) (s : Summary) :
    (pairStep channels aft af z s).tooBig = s.tooBig ∧
    (pairStep channels aft af z s).tooSmall = s.tooSmall ∧
    (pairStep channels aft af z s).nuclei = s.nuclei ∧
    (pairStep channels aft af z s).areaCounter = s.areaCounter ∧
    (pairStep channels aft af z s).positives = s.positives ∧
    (pairStep channels aft af z s).triple = s.triple := by
  unfold pairStep
  by_cases h0 : 2 < channels.length <;> by_cases h1 : af 1 z > aft 1 <;>
    by_cases h2 : af 2 z > aft 2 <;> simp [h0, h1, h2]

theorem tripleStep_spec (channels : List (String × Nat)) (aft : Nat → Rat)
    (af : Nat → Nat → Rat) (z : Nat) (s : Summary) :
    (tripleStep channels aft af z s).tooBig = s.tooBig ∧
    (tripleStep channels aft af z s).tooSmall = s.tooSmall ∧
    (tripleStep channels aft af z s).nuclei = s.nuclei ∧
    (tripleStep channels aft af z s).areaCounter = s.areaCounter ∧
    (tripleStep channels aft af z s).positives = s.positives ∧
    (tripleStep channels aft af z s).triple
      = s.triple + (if 3 < channels.length ∧ af 1 z > aft 1 ∧ af 2 z > aft 2 ∧ af 3 z > aft 3
          then 1 else 0) := by
  unfold tripleStep
  by_cases h0 : 3 < channels.length <;> by_cases h1 : af 1 z > aft 1 <;>
    by_cases h2 : af 2 z > aft 2 <;> by_cases h3 : af 3 z > aft 3 <;>
    simp [h0, h1, h2, h3]

/-- Effect of one candidate-loop iteration on each counter of the summary. -/
theorem processCandidate_spec (channels : List (String × Nat)) (aft : Nat → Rat)
    (af : Nat → Nat → Rat) (tb ts : Rat) (z : Nat) (area : Rat) (s : Summary) :
    (processCandidate channels aft af tb ts z area s).tooBig
      = s.tooBig + (if classify tb ts area = SizeClass.tooBig then 1 else 0) ∧
    (processCandidate channels aft af tb ts z area s).tooSmall
      = s.tooSmall + (if classify tb ts area = SizeClass.tooSmall then 1 else 0) ∧
    (processCandidate channels aft af tb ts z area s).nuclei
      = s.nuclei + (if classify tb ts area = SizeClass.valid then 1 else 0) ∧
    (processCandidate channels aft af tb ts z area s).areaCounter
      = s.areaCounter + (if classify tb ts area = SizeClass.valid then area else 0) ∧
    (∀ x, (processCandidate channels aft af tb ts z area s).positives x
      = s.positives x + (if classify tb ts area = SizeClass.valid
          then channels.countP (fun c => c.2 == x && decide (af c.2 z > aft 0)) else 0)) ∧
    (processCandidate channels aft af tb ts z area s).triple
      = s.triple + (if classify tb ts area = SizeClass.valid
          ∧ 3 < channels.length ∧ af 1 z > aft 1 ∧ af 2 z > aft 2 ∧ af 3 z > aft 3
          then 1 else 0) := by
  by_cases h1 : area > tb
  · have hc : classify tb ts area = SizeClass.tooBig := by simp [classify, h1]
    unfold processCandidate
    simp [h1, hc]
  · by_cases h2 : area < ts
    · have hc : classify tb ts area = SizeClass.tooSmall := by simp [classify, h1, h2]
      unfold processCandidate
      simp [h1, h2, hc]
    · have hc : classify tb ts area = SizeClass.valid := by simp [classify, h1, h2]
      unfold processCandidate
      rw [if_neg h1, if_neg h2]
      obtain ⟨m1, m2, m3, m4, m5⟩ := markerFold_fixed aft af z channels
        ({ s with nuclei := s.nuclei + 1, areaCounter := s.areaCounter + area }, 0)
      have hmp := fun x => markerFold_positives aft af z x channels
        ({ s with nuclei := s.nuclei + 1, areaCounter := s.areaCounter + area }, 0)
      obtain ⟨a1, a2, a3, a4, a5, a6⟩ := allNegStep_spec
        (channels.foldl (markerStep aft af z)
          ({ s with nuclei := s.nuclei + 1, areaCounter := s.areaCounter + area }, 0))
      obtain ⟨b1, b2, b3, b4, b5, b6⟩ := pairStep_spec channels aft af z
        (allNegStep (channels.foldl (markerStep aft af z)
          ({ s with nuclei := s.nuclei + 1, areaCounter := s.areaCounter + area }, 0)))
      obtain ⟨c1, c2, c3, c4, c5, c6⟩ := tripleStep_spec channels aft af z
        (pairStep channels aft af z
          (allNegStep (channels.foldl (markerStep aft af z)
            ({ s with nuclei := s.nuclei + 1, areaCounter := s.areaCounter + area }, 0))))
      refine ⟨?_, ?_, ?_, ?_, ?_, ?_⟩
      · rw [c1, b1, a1, m1]; simp [hc]
      · rw [c2, b2, a2, m2]; simp [hc]
      · rw [c3, b3, a3, m3]; simp [hc]
      · rw [c4, b4, a4, m4]; simp [hc]
      · intro x
        rw [c5, b5, a5, hmp x]
        simp [hc]
      · rw [c6, b6, a6, m5]
        simp [hc]

/-! ### Whole-loop characterizations -/

theorem processFold_sizes (channels : List (String × Nat)) (aft : Nat → Rat)
    (af : Nat → Nat → Rat) (tb ts : Rat) :
    ∀ (l : List (Nat × Rat)) (s : Summary),
      (l.foldl (fun s2 za => processCandidate channels aft af tb ts za.1 za.2 s2) s).tooBig
        = s.tooBig + l.countP (fun za => decide (classify tb ts za.2 = SizeClass.tooBig)) ∧
      (l.foldl (fun s2 za => processCandidate channels aft af tb ts za.1 za.2 s2) s).tooSmall
        = s.tooSmall + l.countP (fun za => decide (classify tb ts za.2 = SizeClass.tooSmall)) ∧
      (l.foldl (fun s2 za => processCandidate channels aft af tb ts za.1 za.2 s2) s).nuclei
        = s.nuclei + l.countP (fun za => decide (classify tb ts za.2 = SizeClass.valid)) ∧
      (l.foldl (fun s2 za => processCandidate channels aft af tb ts za.1 za.2 s2) s).areaCounter
        = s.areaCounter
          + ((l.map Prod.snd).filter (fun a => decide (classify tb ts a = SizeClass.valid))).sum := by
  intro l
  induction l with
  | nil => intro s; simp
  | cons h t ih =>
    intro s
    rw [List.foldl_cons]
    obtain ⟨i1, i2, i3, i4⟩ := ih (processCandidate channels aft af tb ts h.1 h.2 s)
    obtain ⟨p1, p2, p3, p4, _, _⟩ := processCandidate_spec channels aft af tb ts h.1 h.2 s
    refine ⟨?_, ?_, ?_, ?_⟩
    · rw [i1, p1, List.countP_cons]
      by_cases hv : classify tb ts h.2 = SizeClass.tooBig <;> simp [hv] <;> omega
    · rw [i2, p2, List.countP_cons]
      by_cases hv : classify tb ts h.2 = SizeClass.tooSmall <;> simp [hv] <;> omega
    · rw [i3, p3, List.countP_cons]
      by_cases hv : classify tb ts h.2 = SizeClass.valid <;> simp [hv] <;> omega
    · rw [i4, p4, List.map_cons, List.filter_cons]
      by_cases hv : classify tb ts h.2 = SizeClass.valid <;> simp [hv] <;> ring

theorem processFold_positives (channels : List (String × Nat)) (aft : Nat → Rat)
    (af : Nat → Nat → Rat) (tb ts : Rat) (v : String) (x : Nat)
    (h1 : (v, x) ∈ channels) (h2 : (channels.map Prod.snd).Nodup) :
    ∀ (l : List (Nat × Rat)) (s : Summary),
      (l.foldl (fun s2 za => processCandidate channels aft af tb ts za.1 za.2 s2) s).positives x
        = s.positives x
          + l.countP (fun za =>
              decide (classify tb ts za.2 = SizeClass.valid) && decide (af x za.1 > aft 0)) := by
  intro l
  induction l with
  | nil => intro s; simp
  | cons h t ih =>
    intro s
    rw [List.foldl_cons]
    rw [ih (processCandidate channels aft af tb ts h.1 h.2 s)]
    obtain ⟨_, _, _, _, p5, _⟩ := processCandidate_spec channels aft af tb ts h.1 h.2 s
    rw [p5 x, countP_channel_hit aft af h.1 v x channels h1 h2, List.countP_cons]
    by_cases hv : classify tb ts h.2 = SizeClass.valid <;>
      by_cases haf : af x h.1 > aft 0 <;> simp [hv, haf] <;> omega

theorem processFold_triple (channels : List (String × Nat)) (aft : Nat → Rat)
    (af : Nat → Nat → Rat) (tb ts : Rat) (hlen : 3 < channels.length) :
    ∀ (l : List (Nat × Rat)) (s : Summary),
      (l.foldl (fun s2 za => processCandidate channels aft af tb ts za.1 za.2 s2) s).triple
        = s.triple
          + l.countP (fun za =>
              decide (classify tb ts za.2 = SizeClass.valid)
              && decide (af 1 za.1 > aft 1) && decide (af 2 za.1 > aft 2)
              && decide (af 3 za.1 > aft 3)) := by
  intro l
  induction l with
  | nil => intro s; simp
  | cons h t ih =>
    intro s
    rw [List.foldl_cons]
    rw [ih (processCandidate channels aft af tb ts h.1 h.2 s)]
    obtain ⟨_, _, _, _, _, p6⟩ := processCandidate_spec channels aft af tb ts h.1 h.2 s
    rw [p6, List.countP_cons]
    by_cases hv : classify tb ts h.2 = SizeClass.valid <;>
      by_cases g1 : af 1 h.1 > aft 1 <;> by_cases g2 : af 2 h.1 > aft 2 <;>
      by_cases g3 : af 3 h.1 > aft 3 <;> simp [hv, g1, g2, g3, hlen] <;> omega

theorem countP_enum_snd (p : Rat → Bool) (areas : List Rat) :
    areas.enum.countP (fun za => p za.2) = areas.countP p := by
  have h := List.countP_map p Prod.snd areas.enum
  rw [List.enum_map_snd] at h
  rw [h]
  rfl

/-- Final values of the size counters and of the area accumulator after the
whole candidate loop. -/
theorem processAll_sizes (channels : List (String × Nat)) (aft : Nat → Rat)
    (af : Nat → Nat → Rat) (tb ts : Rat) (areas : List Rat) :
    (processAllCandidates channels aft af tb ts areas).tooBig
      = areas.countP (fun a => decide (classify tb ts a = SizeClass.tooBig)) ∧
    (processAllCandidates channels aft af tb ts areas).tooSmall
      = areas.countP (fun a => decide (classify tb ts a = SizeClass.tooSmall)) ∧
    (processAllCandidates channels aft af tb ts areas).nuclei
      = areas.countP (fun a => decide (classify tb ts a = SizeClass.valid)) ∧
    (processAllCandidates channels aft af tb ts areas).areaCounter
      = (areas.filter (fun a => decide (classify tb ts a = SizeClass.valid))).sum := by
  obtain ⟨f1, f2, f3, f4⟩ := processFold_sizes channels aft af tb ts areas.enum initialSummary
  unfold processAllCandidates
  rw [f1, f2, f3, f4, List.enum_map_snd,
    countP_enum_snd (fun a => decide (classify tb ts a = SizeClass.tooBig)),
    countP_enum_snd (fun a => decide (classify tb ts a = SizeClass.tooSmall)),
    countP_enum_snd (fun a => decide (classify tb ts a = SizeClass.valid))]
  simp [initialSummary]

theorem countP_classify_total (tb ts : Rat) (areas : List Rat) :
    areas.countP (fun a => decide (classify tb ts a = SizeClass.tooBig))
    + areas.countP (fun a => decide (classify tb ts a = SizeClass.tooSmall))
    + areas.countP (fun a => decide (classify tb ts a = SizeClass.valid))
    = areas.length := by
  induction areas with
  | nil => rfl
  | cons a t ih =>
    rw [List.countP_cons, List.countP_cons, List.countP_cons, List.length_cons]
    rcases h : classify tb ts a with _ | _ | _ <;> simp [h] <;> omega

/-! ### Claim theorems: size classification, positivity, colocalization -/

/-- C5: every candidate is assigned exactly one of the three size classes
(valid, too-small, too-big), the three counters count exactly those classes,
and the three counts always sum to the total number of candidates. -/
theorem size_class_partition (channels : List (String × Nat)) (aft : Nat → Rat)
    (af : Nat → Nat → Rat) (tb ts : Rat) (areas : List Rat) :
    (∀ a : Rat,
      (if classify tb ts a = SizeClass.tooBig then 1 else 0)
      + (if classify tb ts a = SizeClass.tooSmall then 1 else 0)
      + (if classify tb ts a = SizeClass.valid then 1 else 0) = 1) ∧
    (processAllCandidates channels aft af tb ts areas).tooBig
      = areas.countP (fun a => decide (classify tb ts a = SizeClass.tooBig)) ∧
    (processAllCandidates channels aft af tb ts areas).tooSmall
      = areas.countP (fun a => decide (classify tb ts a = SizeClass.tooSmall)) ∧
    (processAllCandidates channels aft af tb ts areas).nuclei
      = areas.countP (fun a => decide (classify tb ts a = SizeClass.valid)) ∧
    (processAllCandidates channels aft af tb ts areas).tooBig
      + (processAllCandidates channels aft af tb ts areas).tooSmall
      + (processAllCandidates channels aft af tb ts areas).nuclei = areas.length := by
  obtain ⟨f1, f2, f3, _⟩ := processAll_sizes channels aft af tb ts areas
  refine ⟨?_, f1, f2, f3, ?_⟩
  · intro a
    rcases h : classify tb ts a with _ | _ | _ <;> simp [h]
  · rw [f1, f2, f3]
    exact countP_classify_total tb ts areas

/-- C6: the reported size-average equals the sum of the areas of valid
candidates divided by the valid-candidate count, rounded to 2 decimals, and
equals 0 whenever no valid candidate exists. -/
theorem size_average_formula (channels : List (String × Nat)) (aft : Nat → Rat)
    (af : Nat → Nat → Rat) (tb ts : Rat) (areas : List Rat) :
    sizeAverage channels aft af tb ts areas
      = if areas.countP (fun a => decide (classify tb ts a = SizeClass.valid)) = 0 then 0
        else round2
          ((areas.filter (fun a => decide (classify tb ts a = SizeClass.valid))).sum
            / (areas.countP (fun a => decide (classify tb ts a = SizeClass.valid)) : Rat)) := by
  obtain ⟨_, _, f3, f4⟩ := processAll_sizes channels aft af tb ts areas
  unfold sizeAverage
  rw [f3, f4]
  by_cases h : areas.countP (fun a => decide (classify tb ts a = SizeClass.valid)) = 0
  · simp [h]
  · have hpos : (0 : Rat) < (areas.countP (fun a => decide (classify tb ts a = SizeClass.valid)) : Rat) := by
      exact_mod_cast Nat.pos_of_ne_zero h
    rw [if_pos hpos, if_neg h]

/-- C9: boundary areas count as valid: too-big needs area strictly above the
500 threshold and too-small strictly below the 50 threshold, so areas exactly
50 and exactly 500 are classified valid and enter the nucleus count and the
size-average. -/
theorem boundary_areas_valid :
    classify tooBigThreshold tooSmallThreshold 50 = SizeClass.valid ∧
    classify tooBigThreshold tooSmallThreshold 500 = SizeClass.valid ∧
    (∀ a : Rat, classify tooBigThreshold tooSmallThreshold a = SizeClass.tooBig
      ↔ tooBigThreshold < a) ∧
    (∀ a : Rat, classify tooBigThreshold tooSmallThreshold a = SizeClass.tooSmall
      ↔ a < tooSmallThreshold) ∧
    (processAllCandidates channelsDefault areaFractionThreshold afZero tooBigThreshold
      tooSmallThreshold [50, 500]).nuclei = 2 ∧
    sizeAverage channelsDefault areaFractionThreshold afZero tooBigThreshold
      tooSmallThreshold [50, 500] = 275 := by
  refine ⟨by norm_num [classify, tooBigThreshold, tooSmallThreshold],
    by norm_num [classify, tooBigThreshold, tooSmallThreshold], ?_, ?_, ?_, ?_⟩
  · intro a
    by_cases h1 : a > tooBigThreshold
    · simp [classify, h1]
    · by_cases h2 : a < tooSmallThreshold <;> simp [classify, h1, h2]
  · intro a
    by_cases h1 : a > tooBigThreshold
    · have h2 : ¬ a < tooSmallThreshold := by
        unfold tooBigThreshold at h1
        unfold tooSmallThreshold
        linarith
      simp [classify, h1, h2]
    · by_cases h2 : a < tooSmallThreshold <;> simp [classify, h1, h2]
  · norm_num [processAllCandidates, processCandidate, List.enum, List.enumFrom,
      channelsDefault, initialSummary, markerStep, allNegStep, pairStep, tripleStep,
      afZero, areaFractionThreshold, tooBigThreshold, tooSmallThreshold]
  · norm_num [sizeAverage, processAllCandidates, processCandidate, List.enum,
      List.enumFrom, channelsDefault, initialSummary, markerStep, allNegStep, pairStep,
      tripleStep, afZero, areaFractionThreshold, tooBigThreshold, tooSmallThreshold, round2]

/-- C1 counterexample: a too-big candidate (area 700) whose area fraction for
channel 1 meets (indeed exceeds) the threshold of that marker is never tested for
positivity — the positive counter stays 0, so the counter does NOT count
positive candidates across all size classes. -/
theorem positives_skip_nonvalid_cex :
    afOne 1 0 ≥ areaFractionThreshold 1 ∧
    classify tooBigThreshold tooSmallThreshold 700 = SizeClass.tooBig ∧
    (processAllCandidates channelsDefault areaFractionThreshold afOne tooBigThreshold
        tooSmallThreshold [700]).positives 1 = 0 := by
  refine ⟨by norm_num [afOne, areaFractionThreshold],
    by norm_num [classify, tooBigThreshold, tooSmallThreshold], ?_⟩
  norm_num [processAllCandidates, processCandidate, List.enum, List.enumFrom,
    channelsDefault, initialSummary, markerStep, allNegStep, pairStep, tripleStep,
    afOne, areaFractionThreshold, tooBigThreshold, tooSmallThreshold]

/-- C1 amended: for every configured channel (channel indices distinct, as the
dialog produces them), the per-marker positive counter equals the number of
VALID-size candidates whose area fraction is strictly greater than the
threshold at index 0; too-big and too-small candidates are never evaluated. -/
theorem positives_count_valid_only (channels : List (String × Nat)) (aft : Nat → Rat)
    (af : Nat → Nat → Rat) (tb ts : Rat) (areas : List Rat) (v : String) (x : Nat)
    (h1 : (v, x) ∈ channels) (h2 : (channels.map Prod.snd).Nodup) :
    (processAllCandidates channels aft af tb ts areas).positives x
      = areas.enum.countP (fun za =>
          decide (classify tb ts za.2 = SizeClass.valid) && decide (af x za.1 > aft 0)) := by
  unfold processAllCandidates
  rw [processFold_positives channels aft af tb ts v x h1 h2 areas.enum initialSummary]
  simp [initialSummary]

/-- Witness for the amended C1 theorem at a concrete input. -/
theorem positives_count_valid_only_witness :
    ("pSYN", 1) ∈ channelsDefault ∧ (channelsDefault.map Prod.snd).Nodup ∧
    (processAllCandidates channelsDefault areaFractionThreshold afOne tooBigThreshold
        tooSmallThreshold [700, 100]).positives 1
      = ([(700 : Rat), 100]).enum.countP (fun za =>
          decide (classify tooBigThreshold tooSmallThreshold za.2 = SizeClass.valid)
          && decide (afOne 1 za.1 > areaFractionThreshold 0)) :=
  ⟨by decide, by decide,
    positives_count_valid_only channelsDefault areaFractionThreshold afOne tooBigThreshold
      tooSmallThreshold [700, 100] ("pSYN") 1 (by decide) (by decide)⟩

/-- C2 counterexample: at an area fraction exactly equal to the 0.1 threshold,
the spec predicate (inclusive) is positive but the code predicate (strict,
line 394) is negative, and the counter does not increment even for a
valid-size candidate. -/
theorem marker_positivity_not_inclusive_cex :
    markerPositiveSpec areaFractionThreshold afTenth 1 0 = true ∧
    markerPositive areaFractionThreshold afTenth 1 0 = false ∧
    classify tooBigThreshold tooSmallThreshold 100 = SizeClass.valid ∧
    (processAllCandidates channelsDefault areaFractionThreshold afTenth tooBigThreshold
        tooSmallThreshold [100]).positives 1 = 0 := by
  refine ⟨by norm_num [markerPositiveSpec, afTenth, areaFractionThreshold],
    by norm_num [markerPositive, afTenth, areaFractionThreshold],
    by norm_num [classify, tooBigThreshold, tooSmallThreshold], ?_⟩
  norm_num [processAllCandidates, processCandidate, List.enum, List.enumFrom,
    channelsDefault, initialSummary, markerStep, allNegStep, pairStep, tripleStep,
    afTenth, areaFractionThreshold, tooBigThreshold, tooSmallThreshold]

/-- C2 amended: the per-(candidate, marker) positivity boolean is true exactly
when the area fraction is STRICTLY greater than the threshold at index 0 (not
the own threshold of the marker — though all default thresholds are equal), and for
a single valid candidate the positive counter increments exactly according to
this boolean. -/
theorem marker_positivity_strict (channels : List (String × Nat)) (aft : Nat → Rat)
    (af : Nat → Nat → Rat) (tb ts : Rat) (v : String) (x : Nat) (a : Rat)
    (h1 : (v, x) ∈ channels) (h2 : (channels.map Prod.snd).Nodup)
    (h3 : classify tb ts a = SizeClass.valid) :
    (processAllCandidates channels aft af tb ts [a]).positives x
      = (markerPositive aft af x 0).toNat ∧
    (markerPositive aft af x 0 = true ↔ af x 0 > aft 0) := by
  constructor
  · unfold processAllCandidates
    rw [processFold_positives channels aft af tb ts v x h1 h2]
    simp [List.enum, List.enumFrom, initialSummary, List.countP_cons, h3, markerPositive]
    by_cases haf : af x 0 > aft 0 <;> simp [haf]
  · simp [markerPositive]

/-- Witness for the amended C2 theorem at a concrete input. -/
theorem marker_positivity_strict_witness :
    ("pSYN", 1) ∈ channelsDefault ∧ (channelsDefault.map Prod.snd).Nodup ∧
    classify tooBigThreshold tooSmallThreshold 100 = SizeClass.valid ∧
    ((processAllCandidates channelsDefault areaFractionThreshold afOne tooBigThreshold
        tooSmallThreshold [100]).positives 1
      = (markerPositive areaFractionThreshold afOne 1 0).toNat ∧
     (markerPositive areaFractionThreshold afOne 1 0 = true
       ↔ afOne 1 0 > areaFractionThreshold 0)) :=
  ⟨by decide, by decide, by norm_num [classify, tooBigThreshold, tooSmallThreshold],
    marker_positivity_strict channelsDefault areaFractionThreshold afOne tooBigThreshold
      tooSmallThreshold ("pSYN") 1 100 (by decide) (by decide)
      (by norm_num [classify, tooBigThreshold, tooSmallThreshold])⟩

/-- C3 counterexample: a too-big candidate with marker1, marker2 and marker3
all positive does NOT increment the triple counter, because the whole
colocalization block runs only for valid-size candidates. -/
theorem triple_skips_nonvalid_cex :
    afOne 1 0 > areaFractionThreshold 1 ∧ afOne 2 0 > areaFractionThreshold 2 ∧
    afOne 3 0 > areaFractionThreshold 3 ∧
    classify tooBigThreshold tooSmallThreshold 700 = SizeClass.tooBig ∧
    (processAllCandidates channelsDefault areaFractionThreshold afOne tooBigThreshold
        tooSmallThreshold [700]).triple = 0 := by
  refine ⟨by norm_num [afOne, areaFractionThreshold],
    by norm_num [afOne, areaFractionThreshold],
    by norm_num [afOne, areaFractionThreshold],
    by norm_num [classify, tooBigThreshold, tooSmallThreshold], ?_⟩
  norm_num [processAllCandidates, processCandidate, List.enum, List.enumFrom,
    channelsDefault, initialSummary, markerStep, allNegStep, pairStep, tripleStep,
    afOne, areaFractionThreshold, tooBigThreshold, tooSmallThreshold]

/-- C3 amended: with 4 channels configured, the triple counter counts exactly
the VALID-size candidates for which marker1, marker2 and marker3 all exceed
their own thresholds (so a valid candidate with marker2 negative never
increments it, and a valid candidate with all three positive always does). -/
theorem triple_counts_all_three (channels : List (String × Nat)) (aft : Nat → Rat)
    (af : Nat → Nat → Rat) (tb ts : Rat) (areas : List Rat)
    (hlen : 3 < channels.length) :
    (processAllCandidates channels aft af tb ts areas).triple
      = areas.enum.countP (fun za =>
          decide (classify tb ts za.2 = SizeClass.valid)
          && decide (af 1 za.1 > aft 1) && decide (af 2 za.1 > aft 2)
          && decide (af 3 za.1 > aft 3)) := by
  unfold processAllCandidates
  rw [processFold_triple channels aft af tb ts hlen areas.enum initialSummary]
  simp [initialSummary]

/-- Witness for the amended C3 theorem: candidate 0 has marker1 and marker3
positive but marker2 negative, candidate 1 has all three positive. -/
theorem triple_counts_all_three_witness :
    3 < channelsDefault.length ∧
    (processAllCandidates channelsDefault areaFractionThreshold afMixed tooBigThreshold
        tooSmallThreshold [100, 100]).triple
      = ([(100 : Rat), 100]).enum.countP (fun za =>
          decide (classify tooBigThreshold tooSmallThreshold za.2 = SizeClass.valid)
          && decide (afMixed 1 za.1 > areaFractionThreshold 1)
          && decide (afMixed 2 za.1 > areaFractionThreshold 2)
          && decide (afMixed 3 za.1 > areaFractionThreshold 3)) :=
  ⟨by decide,
    triple_counts_all_three channelsDefault areaFractionThreshold afMixed tooBigThreshold
      tooSmallThreshold [100, 100] (by decide)⟩

/-! ### Calibration resolver (source lines 113-127) -/

/-- One `DimensionDescription` element of the XML metadata file.  The code
reads `int(attrib[NumberOfElements])` and `float(attrib[Length])`: a missing
or non-numeric attribute raises an uncaught exception, modelled by `none`. -/
structure DimensionDescription where
  numberOfElements : Option Int
  unit : String
  length : Option Rat

/-- The fixed fallback pixel length 0.877017 (source line 127). -/
def defaultPixelLength : Rat := 877017 / 1000000

/-- Parsing of one `DimensionDescription` (source lines 120-124): the pixel
count must parse as an integer, then the length is converted to microns,
multiplied by 1e6 when the unit is the meter string m.  `none` models the uncaught
exception of the source. -/
def convertDim (d : DimensionDescription) : Option (Int × Rat) :=
  match d.numberOfElements with
  | none => none
  | some np =>
    match d.length with
    | none => none
    | some len => some (np, if d.unit = "m" then len * 1000000 else len)

/-- One iteration of the loop over `DimensionDescription` elements (source
lines 119-124): the previous state is discarded (the loop variables are simply
overwritten), so the last element wins; a parse failure raises. -/
def dimStep (_st : Option (Int × Rat)) (d : DimensionDescription) :
    Except String (Option (Int × Rat)) :=
  match convertDim d with
  | none => Except.error ("ValueError: invalid DimensionDescription attribute")
  | some val => Except.ok (some val)

/-- Calibration resolution (source lines 113-127).  `xmlFiles` is the list of
XML metadata files of the image set, each given by its list of
`DimensionDescription` elements.  With no XML file the fixed default is
returned; otherwise the elements of the first file are parsed in order, the values
of the last one win, and the pixel length is the converted length divided by the
pixel count.  A parse failure raises (ValueError); a file with no
`DimensionDescription` element leaves `length` unbound (NameError). -/
def pixel_length (xmlFiles : List (List DimensionDescription)) : Except String Rat :=
  match xmlFiles with
  | [] => Except.ok defaultPixelLength
  | dims :: _ =>
    match dims.foldlM dimStep (none : Option (Int × Rat)) with
    | Except.error e => Except.error e
    | Except.ok none => Except.error ("NameError: length is not defined")
    | Except.ok (some (np, len)) => Except.ok (len / (np : Rat))

theorem pixelFold_all_ok (d : DimensionDescription) (val : Int × Rat)
    (hd : convertDim d = some val) :
    ∀ (front : List DimensionDescription) (st : Option (Int × Rat)),
      (∀ d2 ∈ front, (convertDim d2).isSome = true) →
      (front ++ [d]).foldlM dimStep st = Except.ok (some val) := by
  intro front
  induction front with
  | nil =>
    intro st _
    rw [List.nil_append, List.foldlM_cons]
    simp [dimStep, hd]
  | cons c cs ih =>
    intro st hall
    have hc : (convertDim c).isSome = true := hall c (List.mem_cons_self c cs)
    obtain ⟨vc, hvc⟩ := Option.isSome_iff_exists.mp hc
    rw [List.cons_append, List.foldlM_cons]
    have hstep : dimStep st c = Except.ok (some vc) := by simp [dimStep, hvc]
    rw [hstep]
    exact ih (some vc) (fun d2 h2 => hall d2 (List.mem_cons_of_mem c h2))

theorem pixelFold_error (dims : List DimensionDescription) :
    ∀ st : Option (Int × Rat), (∃ d2 ∈ dims, convertDim d2 = none) →
      ∃ e, dims.foldlM dimStep st = Except.error e := by
  induction dims with
  | nil =>
    rintro st ⟨d2, h2, _⟩
    exact absurd h2 (List.not_mem_nil _)
  | cons c cs ih =>
    rintro st ⟨d2, h2, hnone⟩
    rw [List.foldlM_cons]
    cases hcv : convertDim c with
    | none =>
      have hstep : dimStep st c
          = Except.error ("ValueError: invalid DimensionDescription attribute") := by
        simp [dimStep, hcv]
      rw [hstep]
      exact ⟨_, rfl⟩
    | some vc =>
      have hstep : dimStep st c = Except.ok (some vc) := by simp [dimStep, hcv]
      rw [hstep]
      rcases List.mem_cons.mp h2 with hc | hc
      · rw [← hc] at hcv
        rw [hnone] at hcv
        cases hcv
      · exact ih (some vc) ⟨d2, hc, hnone⟩

/-- C4 amended: the resolver returns the default only when NO metadata file is
present; with a well-formed metadata file it returns the converted length of the
last dimension divided by its pixel count; but with a metadata file that is
present and malformed (no DimensionDescription element, or a non-parsing
attribute) it FAILS instead of returning the default. -/
theorem calibration_resolver_behavior :
    (pixel_length [] = Except.ok defaultPixelLength) ∧
    (∀ rest : List (List DimensionDescription),
      pixel_length ([] :: rest) = Except.error ("NameError: length is not defined")) ∧
    (∀ (front : List DimensionDescription) (d : DimensionDescription)
        (rest : List (List DimensionDescription)) (np : Int) (len : Rat),
      (∀ d2 ∈ front, (convertDim d2).isSome = true) → convertDim d = some (np, len) →
      pixel_length ((front ++ [d]) :: rest) = Except.ok (len / (np : Rat))) ∧
    (∀ (dims : List DimensionDescription) (rest : List (List DimensionDescription)),
      (∃ d2 ∈ dims, convertDim d2 = none) →
      ∃ e, pixel_length (dims :: rest) = Except.error e) := by
  refine ⟨rfl, fun rest => rfl, ?_, ?_⟩
  · intro front d rest np len hall hd
    show (match (front ++ [d]).foldlM dimStep (none : Option (Int × Rat)) with
      | Except.error e => Except.error e
      | Except.ok none => Except.error ("NameError: length is not defined")
      | Except.ok (some (np2, len2)) => Except.ok (len2 / (np2 : Rat)))
      = Except.ok (len / (np : Rat))
    rw [pixelFold_all_ok d (np, len) hd front none hall]
  · intro dims rest hex
    obtain ⟨e, he⟩ := pixelFold_error dims none hex
    refine ⟨e, ?_⟩
    show (match dims.foldlM dimStep (none : Option (Int × Rat)) with
      | Except.error e2 => Except.error e2
      | Except.ok none => Except.error ("NameError: length is not defined")
      | Except.ok (some (np2, len2)) => Except.ok (len2 / (np2 : Rat)))
      = Except.error e
    rw [he]

/-- Witness for the amended C4 theorem: a single well-formed dimension of 2048
pixels over 1/1000 m yields 1000 microns / 2048 pixels. -/
theorem calibration_resolver_behavior_witness :
    convertDim ⟨some 2048, "m", some (1 / 1000)⟩ = some (2048, 1000) ∧
    pixel_length [[⟨some 2048, "m", some (1 / 1000)⟩]] = Except.ok ((1000 : Rat) / 2048) :=
  ⟨by norm_num [convertDim],
    calibration_resolver_behavior.2.2.1 [] ⟨some 2048, "m", some (1 / 1000)⟩ [] 2048 1000
      (fun d2 h => absurd h (List.not_mem_nil _)) (by norm_num [convertDim])⟩

/-- C4 counterexample: metadata PRESENT but malformed — an XML file with no
DimensionDescription element, or one with a non-numeric pixel count — makes
the resolver fail instead of returning the default pixel size 0.877017. -/
theorem calibration_malformed_fails_cex :
    pixel_length [[]] = Except.error ("NameError: length is not defined") ∧
    pixel_length [[⟨none, "um", some 1⟩]]
      = Except.error ("ValueError: invalid DimensionDescription attribute") :=
  ⟨rfl, rfl⟩

/-! ### Lower-bound threshold resolution (source lines 511-516) -/

/-- Numeric value of a list of decimal digit characters. -/
def digitsVal (cs : List Char) : Nat :=
  cs.foldl (fun acc c => acc * 10 + (c.toNat - 48)) 0

/-- Python `int(...)` applied to a string: an optional minus sign followed by
at least one digit; anything else raises ValueError, modelled as `none`. -/
def parseIntPy (s : String) : Option Int :=
  match s.data with
  | [] => none
  | c :: cs =>
    if c = '-' then
      if cs ≠ [] ∧ cs.all Char.isDigit then some (-(digitsVal cs : Int)) else none
    else if (c :: cs).all Char.isDigit then some ((digitsVal (c :: cs) : Int)) else none

/-- Lookup of a marker name in the threshold-override table, modelling
`v in thresholds` followed by `thresholds[v]`. -/
def lookupTable (k : String) : List (String × String) → Option String
  | [] => none
  | (k2, val) :: rest => if k2 = k then some val else lookupTable k rest

/-- Default lower bounds `[40, 20, 35, 50, 40]` (source line 512). -/
def lowerBoundsDefault : List Int := [40, 20, 35, 50, 40]

/-- One iteration of the override loop (source lines 513-516): a channel whose
marker name is in the thresholds table has its entry of the lower-bound list
replaced by `int(thresholds[v])`; a non-numeric value raises ValueError. -/
def lowerBoundStep (thresholds : List (String × String)) (lb : List Int)
    (chan : String × Nat) : Except String (List Int) :=
  match lookupTable chan.1 thresholds with
  | none => Except.ok lb
  | some sv =>
    match parseIntPy sv with
    | none => Except.error ("ValueError: invalid literal for int: " ++ sv)
    | some n => Except.ok (lb.set chan.2 n)

/-- Source lines 512-516: starting from the defaults, the override loop runs
over every configured channel. -/
def resolveLowerBounds (thresholds : List (String × String))
    (channels : List (String × Nat)) : Except String (List Int) :=
  channels.foldlM (lowerBoundStep thresholds) lowerBoundsDefault

theorem lowerBoundsFold_error (thresholds : List (String × String)) (v : String)
    (x : Nat) (sv : String) (h2 : lookupTable v thresholds = some sv)
    (h3 : parseIntPy sv = none) :
    ∀ channels : List (String × Nat), (v, x) ∈ channels →
      ∀ lb : List Int,
        ∃ e, channels.foldlM (lowerBoundStep thresholds) lb = Except.error e := by
  intro channels
  induction channels with
  | nil => intro h; exact absurd h (List.not_mem_nil _)
  | cons c cs ih =>
    intro hmem lb
    rw [List.foldlM_cons]
    rcases List.mem_cons.mp hmem with hc | hc
    · have hstep : lowerBoundStep thresholds lb c
          = Except.error ("ValueError: invalid literal for int: " ++ sv) := by
        rw [← hc]
        simp [lowerBoundStep, h2, h3]
      rw [hstep]
      exact ⟨_, rfl⟩
    · cases hl : lookupTable c.1 thresholds with
      | none =>
        have hstep : lowerBoundStep thresholds lb c = Except.ok lb := by
          simp [lowerBoundStep, hl]
        rw [hstep]
        exact ih hc lb
      | some s2 =>
        cases hp : parseIntPy s2 with
        | none =>
          have hstep : lowerBoundStep thresholds lb c
              = Except.error ("ValueError: invalid literal for int: " ++ s2) := by
            simp [lowerBoundStep, hl, hp]
          rw [hstep]
          exact ⟨_, rfl⟩
        | some n =>
          have hstep : lowerBoundStep thresholds lb c = Except.ok (lb.set c.2 n) := by
            simp [lowerBoundStep, hl, hp]
          rw [hstep]
          exact ih hc (lb.set c.2 n)

/-- C7: a non-numeric override value for a configured marker name makes the
lower-bound resolution fail (an uncaught ValueError with its message as the
diagnostic) rather than silently substitute the default bound of that marker. -/
theorem malformed_override_fails (thresholds : List (String × String))
    (channels : List (String × Nat)) (v : String) (x : Nat) (sv : String)
    (h1 : (v, x) ∈ channels) (h2 : lookupTable v thresholds = some sv)
    (h3 : parseIntPy sv = none) :
    ∃ e, resolveLowerBounds thresholds channels = Except.error e := by
  unfold resolveLowerBounds
  exact lowerBoundsFold_error thresholds v x sv h2 h3 channels h1 lowerBoundsDefault

/-- Witness for C7: the override table maps pSYN to the non-numeric string
fifty. -/
theorem malformed_override_fails_witness :
    ("pSYN", 1) ∈ channelsDefault ∧
    lookupTable ("pSYN") [("pSYN", "fifty")] = some ("fifty") ∧
    parseIntPy ("fifty") = none ∧
    ∃ e, resolveLowerBounds [("pSYN", "fifty")] channelsDefault = Except.error e :=
  ⟨by decide, by decide, by decide,
    malformed_override_fails [("pSYN", "fifty")] channelsDefault ("pSYN") 1 ("fifty")
      (by decide) (by decide) (by decide)⟩

/-! ### Output header and summary keys (source lines 319-372) -/

/-- Key of the too-big counter column (source lines 330, 335). -/
def tooBigKey (tb : Rat) : String := "too-big-(>" ++ toString tb ++ ")"

/-- Key of the too-small counter column (source lines 331, 336). -/
def tooSmallKey (ts : Rat) : String := "too-small-(<" ++ toString ts ++ ")"

/-- The four per-marker columns appended for each configured channel (source
lines 343-355). -/
def markerCols (chan : String × Nat) : List String :=
  [chan.1 ++ "-positive", chan.1 ++ "-intensity", chan.1 ++ "-blobsarea",
   chan.1 ++ "-blobsnuclei"]

/-- Name of the channel at position i of the configured list, Python
`channels[i][0]`. -/
def chanName (channels : List (String × Nat)) (i : Nat) : String :=
  (channels.getD i ("", 0)).1

/-- Marker1-marker2 colocalization column (source lines 360-361). -/
def pairKey12 (channels : List (String × Nat)) : String :=
  chanName channels 1 ++ "-" ++ chanName channels 2 ++ "-positive"

/-- Marker1-marker3 colocalization column (source lines 366, 370). -/
def pairKey13 (channels : List (String × Nat)) : String :=
  chanName channels 1 ++ "-" ++ chanName channels 3 ++ "-positive"

/-- Marker2-marker3 colocalization column (source lines 367, 371). -/
def pairKey23 (channels : List (String × Nat)) : String :=
  chanName channels 2 ++ "-" ++ chanName channels 3 ++ "-positive"

/-- Triple colocalization column (source lines 368, 372). -/
def tripleKey (channels : List (String × Nat)) : String :=
  chanName channels 1 ++ "-" ++ chanName channels 2 ++ "-"
    ++ chanName channels 3 ++ "-positive"

/-- The eight base columns of source lines 335-336 plus the organoid-area
column appended at line 341, in order. -/
def baseFieldnames (tb ts : Rat) : List String :=
  ["Name", "Directory", "Image", "size-average", tooBigKey tb, tooSmallKey ts,
   "#nuclei", "all-negative", "organoid-area"]

/-- The csv header (source lines 333-372): base columns, four columns per
configured channel, the marker1-marker2 column when more than two channels
are configured, and the three remaining colocalization columns when more than
three are. -/
def fieldnames (channels : List (String × Nat)) (tb ts : Rat) : List String :=
  baseFieldnames tb ts ++ channels.flatMap markerCols
  ++ (if 2 < channels.length then [pairKey12 channels] else [])
  ++ (if 3 < channels.length then
        [pairKey13 channels, pairKey23 channels, tripleKey channels] else [])

/-- Keys assigned into the summary dictionary, in source order (lines 321-331,
340, 343-355, 360, 366-368).  The `+=` updates of the candidate loop and the
final size-average write only touch keys already in this list. -/
def summaryKeys (channels : List (String × Nat)) (tb ts : Rat) : List String :=
  ["Image", "Directory", "size-average", "#nuclei", "all-negative", tooBigKey tb,
   tooSmallKey ts, "organoid-area"]
  ++ channels.flatMap markerCols
  ++ (if 2 < channels.length then [pairKey12 channels] else [])
  ++ (if 3 < channels.length then
        [pairKey13 channels, pairKey23 channels, tripleKey channels] else [])

/-- C8: the base columns are always present in the header; the marker1-marker2
column is present when more than 2 channels are configured and the
marker1-marker3, marker2-marker3 and triple columns when more than 3 are; and
conversely, with 2 or fewer channels the header consists EXACTLY of the base
and per-marker columns, and with 3 or fewer the only possible extra column is
the marker1-marker2 one. -/
theorem header_columns (channels : List (String × Nat)) (tb ts : Rat) :
    (∀ c ∈ baseFieldnames tb ts, c ∈ fieldnames channels tb ts) ∧
    (2 < channels.length → pairKey12 channels ∈ fieldnames channels tb ts) ∧
    (3 < channels.length → pairKey13 channels ∈ fieldnames channels tb ts ∧
      pairKey23 channels ∈ fieldnames channels tb ts ∧
      tripleKey channels ∈ fieldnames channels tb ts) ∧
    (channels.length ≤ 2 → fieldnames channels tb ts
      = baseFieldnames tb ts ++ channels.flatMap markerCols) ∧
    (channels.length ≤ 3 → fieldnames channels tb ts
      = baseFieldnames tb ts ++ channels.flatMap markerCols
        ++ (if 2 < channels.length then [pairKey12 channels] else [])) := by
  refine ⟨?_, ?_, ?_, ?_, ?_⟩
  · intro c hc
    unfold fieldnames
    simp [hc]
  · intro h
    unfold fieldnames
    simp [h]
  · intro h
    unfold fieldnames
    simp [h]
  · intro h
    have h2 : ¬ 2 < channels.length := by omega
    have h3 : ¬ 3 < channels.length := by omega
    unfold fieldnames
    simp [h2, h3]
  · intro h
    have h3 : ¬ 3 < channels.length := by omega
    unfold fieldnames
    simp [h3]

/-- Witness for C8 at concrete configurations: all four colocalization columns
with the default 4 channels, and the exact base-plus-marker header with 2
channels. -/
theorem header_columns_witness :
    pairKey12 channelsDefault ∈ fieldnames channelsDefault tooBigThreshold tooSmallThreshold ∧
    tripleKey channelsDefault ∈ fieldnames channelsDefault tooBigThreshold tooSmallThreshold ∧
    ("Name" ∈ fieldnames channelsDefault tooBigThreshold tooSmallThreshold) ∧
    fieldnames [("Dapi", 0), ("pSYN", 1)] tooBigThreshold tooSmallThreshold
      = baseFieldnames tooBigThreshold tooSmallThreshold
        ++ ([("Dapi", 0), ("pSYN", 1)] : List (String × Nat)).flatMap markerCols :=
  ⟨(header_columns channelsDefault tooBigThreshold tooSmallThreshold).2.1 (by decide),
   ((header_columns channelsDefault tooBigThreshold tooSmallThreshold).2.2.1 (by decide)).2.2,
   (header_columns channelsDefault tooBigThreshold tooSmallThreshold).1 ("Name")
     (by simp [baseFieldnames]),
   (header_columns [("Dapi", 0), ("pSYN", 1)] tooBigThreshold tooSmallThreshold).2.2.2.1
     (by decide)⟩

theorem append_ne_name_right (a b : String) (hb : 5 ≤ b.length) : a ++ b ≠ "Name" := by
  intro h
  have hl := congrArg String.length h
  rw [String.length_append] at hl
  have h4 : ("Name" : String).length = 4 := rfl
  omega

theorem append_ne_name_left (a b : String) (ha : 5 ≤ a.length) : a ++ b ≠ "Name" := by
  intro h
  have hl := congrArg String.length h
  rw [String.length_append] at hl
  have h4 : ("Name" : String).length = 4 := rfl
  omega

theorem tooBigKey_ne_name (tb : Rat) : tooBigKey tb ≠ "Name" := by
  unfold tooBigKey
  refine append_ne_name_left _ _ ?_
  rw [String.length_append]
  have h10 : ("too-big-(>" : String).length = 10 := rfl
  omega

theorem tooSmallKey_ne_name (ts : Rat) : tooSmallKey ts ≠ "Name" := by
  unfold tooSmallKey
  refine append_ne_name_left _ _ ?_
  rw [String.length_append]
  have h12 : ("too-small-(<" : String).length = 12 := rfl
  omega

theorem pairKey12_ne_name (channels : List (String × Nat)) : pairKey12 channels ≠ "Name" := by
  unfold pairKey12
  exact append_ne_name_right _ _ (by decide)

theorem pairKey13_ne_name (channels : List (String × Nat)) : pairKey13 channels ≠ "Name" := by
  unfold pairKey13
  exact append_ne_name_right _ _ (by decide)

theorem pairKey23_ne_name (channels : List (String × Nat)) : pairKey23 channels ≠ "Name" := by
  unfold pairKey23
  exact append_ne_name_right _ _ (by decide)

theorem tripleKey_ne_name (channels : List (String × Nat)) : tripleKey channels ≠ "Name" := by
  unfold tripleKey
  exact append_ne_name_right _ _ (by decide)

theorem mem_markerCols_ne_name (c : String × Nat) : ∀ s ∈ markerCols c, s ≠ "Name" := by
  intro s hs
  unfold markerCols at hs
  simp only [List.mem_cons, List.not_mem_nil, or_false] at hs
  rcases hs with h | h | h | h <;> rw [h]
  · exact append_ne_name_right _ _ (by decide)
  · exact append_ne_name_right _ _ (by decide)
  · exact append_ne_name_right _ _ (by decide)
  · exact append_ne_name_right _ _ (by decide)

/-- C10: the Name column is part of the header (it is its first column), but
no key ever assigned into the per-image summary dictionary is Name, so the
Name cell of every written row stays empty. -/
theorem name_column_never_assigned (channels : List (String × Nat)) (tb ts : Rat) :
    "Name" ∈ fieldnames channels tb ts ∧
    (summaryKeys channels tb ts).count ("Name") = 0 := by
  constructor
  · unfold fieldnames baseFieldnames
    simp
  · rw [List.count_eq_zero]
    intro hmem
    unfold summaryKeys at hmem
    rw [List.mem_append, List.mem_append, List.mem_append] at hmem
    rcases hmem with ((h | h) | h) | h
    · simp only [List.mem_cons, List.not_mem_nil, or_false] at h
      rcases h with h | h | h | h | h | h | h | h
      · exact absurd h (by decide)
      · exact absurd h (by decide)
      · exact absurd h (by decide)
      · exact absurd h (by decide)
      · exact absurd h (by decide)
      · exact tooBigKey_ne_name tb h.symm
      · exact tooSmallKey_ne_name ts h.symm
      · exact absurd h (by decide)
    · obtain ⟨c, _, hmc⟩ := List.mem_flatMap.mp h
      exact mem_markerCols_ne_name c ("Name") hmc rfl
    · by_cases h2 : 2 < channels.length
      · rw [if_pos h2] at h
        simp only [List.mem_cons, List.not_mem_nil, or_false] at h
        exact pairKey12_ne_name channels h.symm
      · rw [if_neg h2] at h
        exact absurd h (List.not_mem_nil _)
    · by_cases h3 : 3 < channels.length
      · rw [if_pos h3] at h
        simp only [List.mem_cons, List.not_mem_nil, or_false] at h
        rcases h with h | h | h
        · exact pairKey13_ne_name channels h.symm
        · exact pairKey23_ne_name channels h.symm
        · exact tripleKey_ne_name channels h.symm
      · rw [if_neg h3] at h
        exact absurd h (List.not_mem_nil _)

end OrgQ
